import Mathlib

/-!
Verification of the Finvasia live-broker reconciliation engine
(`pyalgomate/brokers/finvasia/broker.py`).

The development shallowly embeds the parts of the program that the claims
are about:

* the order entity and its state machine (the order class comes from the
  `pyalgotrade` library, outside this repository; its operations are
  modelled from the specification, see the doc comments below);
* `QuantityTraits.roundQuantity`, the 2-decimal quantization;
* `TradeEvent` (a wrapper over the raw order-book dictionary);
* `TradeMonitor._getNewTrades` and the polling cycle of `TradeMonitor.run`;
* `LiveBroker._onTrade`, `LiveBroker._onUserTrades`, `LiveBroker.submitOrder`,
  `LiveBroker.cancelOrder`, `LiveBroker._createOrder` and the stop-order
  factory methods.

Numeric quantities are rationals; Python `round(x, 2)` is modelled as
rounding `100 * x` to the nearest integer and dividing by `100`.  Python
rounds exact half ties to even while `round` on `ℚ` rounds them up; no
statement below depends on the behaviour at an exact half tie.
Remote timestamps are natural numbers; the raw `norentm` string of an
order-book entry is abstracted by its parse result (`some t` when
`datetime.strptime` succeeds with timestamp `t`, `none` when it raises
`ValueError`).
-/

namespace Finvasia

/-- Lifecycle states of a `pyalgotrade` order.  Modelled from the spec:
states are `Initial → Submitted → Accepted → PartiallyFilled → Filled`
with `Canceled` reachable from every non-terminal state. -/
inductive OrderState where
  | INITIAL
  | SUBMITTED
  | ACCEPTED
  | CANCELED
  | PARTIALLY_FILLED
  | FILLED
deriving DecidableEq, Repr

/-- Order categories (market, limit, stop, stop-limit). -/
inductive OrderTypeKind where
  | MARKET
  | LIMIT
  | STOP
  | STOP_LIMIT
deriving DecidableEq, Repr

/-- Order actions of `pyalgotrade`. -/
inductive Action where
  | BUY
  | BUY_TO_COVER
  | SELL
  | SELL_SHORT
deriving DecidableEq, Repr

/-- The order entity.  Modelled from the spec: identity is the remote
identifier once assigned; attributes are action, instrument, quantity,
filled quantity, order type, limit and stop price, and lifecycle state.
The average fill price and the last execution record of the library order
object are not modelled; no claim observes them (the execution record
carried by a notification is modelled on the notification itself). -/
structure Order where
  id : Option String
  typ : OrderTypeKind
  action : Action
  instrument : String
  quantity : ℚ
  filled : ℚ
  limitPrice : Option ℚ
  stopPrice : Option ℚ
  state : OrderState
  allOrNone : Bool
  goodTillCanceled : Bool
  submitDateTime : Option ℕ
deriving DecidableEq, Repr

/-- QuantityTraits.roundQuantity: `round(quantity, 2)`. -/
def roundQuantity (q : ℚ) : ℚ := (round (q * 100) : ℤ) / 100

/-- A rational is quantized when it is a whole number of hundredths, the
output domain of `roundQuantity`. -/
def Quantized (q : ℚ) : Prop := ∃ n : ℤ, q = (n : ℚ) / 100

/-- Abstraction of the raw `norentm` timestamp string: `parsed = some t`
when `datetime.strptime(s, H:M:S d-m-Y)` succeeds and yields timestamp
`t`, and `parsed = none` when it raises `ValueError`. -/
structure RawTime where
  parsed : Option ℕ
deriving DecidableEq, Repr

/-- A raw order-book entry (the dictionary wrapped by `TradeEvent`), with
exactly the fields the program reads.  A `none` field is one absent from
the dictionary. -/
structure RawOrder where
  norenordno : Option String
  status : Option String
  rejreason : Option String
  avgprc : Option ℚ
  fillshares : Option ℚ
  norentm : Option RawTime
deriving DecidableEq, Repr

/-- TradeEvent.getId. -/
def RawOrder.getId (t : RawOrder) : Option String := t.norenordno

/-- TradeEvent.getStatus. -/
def RawOrder.getStatus (t : RawOrder) : Option String := t.status

/-- TradeEvent.getRejectedReason. -/
def RawOrder.getRejectedReason (t : RawOrder) : Option String := t.rejreason

/-- TradeEvent.getAvgFilledPrice: `float(dict.get(avgprc, 0.0))`. -/
def RawOrder.getAvgFilledPrice (t : RawOrder) : ℚ := t.avgprc.getD 0

/-- TradeEvent.getTotalFilledQuantity: `float(dict.get(fillshares, 0.0))`. -/
def RawOrder.getTotalFilledQuantity (t : RawOrder) : ℚ := t.fillshares.getD 0

/-- TradeEvent.getDateTime: `strptime(dict[norentm], ...)` when the field
is present (which may raise `ValueError`, the `.error` result), `None`
when the field is absent. -/
def RawOrder.getDateTimeE (t : RawOrder) : Except Unit (Option ℕ) :=
  match t.norentm with
  | none => Except.ok none
  | some rt =>
    match rt.parsed with
    | some n => Except.ok (some n)
    | none => Except.error ()

/-- Sort key used by `_getNewTrades`: the parsed timestamp.  Every element
the monitor sorts has a parseable timestamp, so the default is never
used there. -/
def tradeTime (t : RawOrder) : ℕ := (t.norentm.bind RawTime.parsed).getD 0

/-- One entry of `single_order_history`.  The program reads the `stat` and
`status` fields unconditionally, so they are modelled as always present. -/
structure HistoryEntry where
  stat : String
  status : String
deriving DecidableEq, Repr

/-- An execution record: average price, incremental quantity, commission
and the remote event timestamp. -/
structure ExecInfo where
  price : ℚ
  quantity : ℚ
  commission : ℚ
  dateTime : Option ℕ
deriving DecidableEq, Repr

/-- Kinds of strategy-visible order notifications. -/
inductive OrderEventType where
  | ACCEPTED
  | CANCELED
  | FILLED
  | PARTIALLY_FILLED
deriving DecidableEq, Repr

/-- The third constructor argument of `broker.OrderEvent`: either absent
(`None`), an execution record, or a plain message string. -/
inductive EventInfo where
  | execRecord (e : ExecInfo)
  | message (s : String)
deriving DecidableEq, Repr

/-- A strategy-visible order notification, identified by the remote order
identifier of the order it carries. -/
structure OrderEvent where
  orderId : Option String
  eventType : OrderEventType
  info : Option EventInfo
deriving DecidableEq, Repr

/-- The mutable state of `LiveBroker` that the claims observe: the
`__activeOrders` registry (remote identifier to order) and the list of
notifications delivered through `notifyOrderEvent`, in delivery order. -/
structure BrokerState where
  activeOrders : String → Option Order
  notifications : List OrderEvent

/-- Order.isInitial. -/
def Order.isInitial (o : Order) : Prop := o.state = OrderState.INITIAL

instance (o : Order) : Decidable o.isInitial := by
  unfold Order.isInitial; infer_instance

/-- Order.isSubmitted. -/
def Order.isSubmitted (o : Order) : Bool := o.state = OrderState.SUBMITTED

/-- Order.isActive: the order is in one of the non-terminal states. -/
def Order.isActive (o : Order) : Bool :=
  match o.state with
  | OrderState.INITIAL => true
  | OrderState.SUBMITTED => true
  | OrderState.ACCEPTED => true
  | OrderState.PARTIALLY_FILLED => true
  | OrderState.CANCELED => false
  | OrderState.FILLED => false

/-- Order.isFilled. -/
def Order.isFilled (o : Order) : Bool := o.state = OrderState.FILLED

/-- Order.getRemaining: the requested quantity minus the filled quantity,
at the instrument quantization. -/
def Order.getRemaining (o : Order) : ℚ := roundQuantity (o.quantity - o.filled)

/-- Valid lifecycle transitions.  Modelled from the spec: `Initial →
Submitted → Accepted → (PartiallyFilled repeatable) → Filled or Canceled`,
with `Filled` and `Canceled` terminal; a transition outside this relation
is a fatal usage error. -/
def validTransition (s s' : OrderState) : Bool :=
  match s, s' with
  | OrderState.INITIAL, OrderState.SUBMITTED => true
  | OrderState.INITIAL, OrderState.CANCELED => true
  | OrderState.SUBMITTED, OrderState.ACCEPTED => true
  | OrderState.SUBMITTED, OrderState.CANCELED => true
  | OrderState.ACCEPTED, OrderState.PARTIALLY_FILLED => true
  | OrderState.ACCEPTED, OrderState.FILLED => true
  | OrderState.ACCEPTED, OrderState.CANCELED => true
  | OrderState.PARTIALLY_FILLED, OrderState.PARTIALLY_FILLED => true
  | OrderState.PARTIALLY_FILLED, OrderState.FILLED => true
  | OrderState.PARTIALLY_FILLED, OrderState.CANCELED => true
  | _, _ => false

/-- Order.switchState.  Modelled from the spec: moves the order to the new
state; an invalid transition is a fatal error (`.error`). -/
def Order.switchState (o : Order) (s' : OrderState) : Except String Order :=
  if validTransition o.state s' then Except.ok { o with state := s' }
  else Except.error "invalid state transition"

/-- Order.setSubmitted.  Modelled from the spec: stamps the order with its
remote identifier and acknowledgment timestamp; the identifier is set at
most once (`none` when the assertion fails). -/
def Order.setSubmitted (o : Order) (orderId : String) (dt : ℕ) : Option Order :=
  if o.id = none ∨ o.id = some orderId then
    some { o with id := some orderId, submitDateTime := some dt }
  else none

/-- Result of Order.addExecutionInfo: the (possibly partially) updated
order, and whether the call raised. -/
structure AddExecResult where
  order : Order
  aborted : Bool
deriving DecidableEq, Repr

/-- Order.addExecutionInfo.  Modelled from the spec: appends an execution
record of incremental quantity `q`; a record larger than the remaining
quantity is rejected (raise, order unchanged).  Otherwise the filled
quantity becomes the quantized sum, and the order switches to `FILLED`
when nothing remains, else to `PARTIALLY_FILLED`; an invalid switch
raises after the filled quantity was already updated. -/
def Order.addExecutionInfo (o : Order) (q : ℚ) : AddExecResult :=
  if o.getRemaining < q then { order := o, aborted := true }
  else
    let o1 : Order := { o with filled := roundQuantity (o.filled + q) }
    let target :=
      if o1.getRemaining = 0 then OrderState.FILLED else OrderState.PARTIALLY_FILLED
    match o1.switchState target with
    | Except.ok o2 => { order := o2, aborted := false }
    | Except.error _ => { order := o1, aborted := true }

/-- LiveBroker._registerOrder: asserts the identifier is present and not
already registered, then makes the order reachable by it (`none` models
the assertion failure). -/
def registerOrder (s : BrokerState) (o : Order) : Option BrokerState :=
  match o.id with
  | none => none
  | some i =>
    match s.activeOrders i with
    | some _ => none
    | none =>
      some { s with activeOrders := fun k => if k = i then some o else s.activeOrders k }

/-- LiveBroker._unregisterOrder: asserts the identifier of the order is
present, then removes it (`none` models the assertion failure). -/
def unregisterOrder (s : BrokerState) (o : Order) : Option BrokerState :=
  match o.id with
  | none => none
  | some i =>
    match s.activeOrders i with
    | none => none
    | some _ =>
      some { s with activeOrders := fun k => if k = i then none else s.activeOrders k }

/-- In-place mutation of a registered order object: the registry entry at
the identifier of the order, when present, now holds the updated object. -/
def updateOrder (s : BrokerState) (o : Order) : BrokerState :=
  match o.id with
  | none => s
  | some i =>
    { s with activeOrders := fun k =>
        if k = i then (s.activeOrders k).map (fun _ => o) else s.activeOrders k }

/-- Registry lookup with an optional key: `__activeOrders.get(x)` where
`x` may be `None`. -/
def lookupId (s : BrokerState) (x : Option String) : Option Order :=
  match x with
  | none => none
  | some i => s.activeOrders i

/-- Append one notification (`notifyOrderEvent`). -/
def notify (s : BrokerState) (e : OrderEvent) : BrokerState :=
  { s with notifications := s.notifications ++ [e] }

/-- Result of one `_onTrade` call: broker state reached, the trade target
order object after any mutation, and whether an exception was raised
(mutations made before the raise persist, as in the source). -/
structure OnTradeResult where
  state : BrokerState
  order : Order
  aborted : Bool

/-- LiveBroker._onTrade, applied to an order found in the registry and one
trade event.  `REJECTED` and `CANCELED` unregister the order, switch it to
`CANCELED` and notify with no event info; `COMPLETE` builds an execution
record whose quantity is the remote cumulative filled quantity minus the
recorded filled quantity, applies it, unregisters the order when it is no
longer active, and notifies `FILLED` or `PARTIALLY_FILLED` with that
record; any other status only logs. -/
def onTrade (s : BrokerState) (order : Order) (t : RawOrder) : OnTradeResult :=
  if t.getStatus = some "REJECTED" ∨ t.getStatus = some "CANCELED" then
    match unregisterOrder s order with
    | none => { state := s, order := order, aborted := true }
    | some s1 =>
      match order.switchState OrderState.CANCELED with
      | Except.error _ => { state := s1, order := order, aborted := true }
      | Except.ok o2 =>
        { state := notify s1 { orderId := o2.id, eventType := OrderEventType.CANCELED, info := none },
          order := o2, aborted := false }
  else if t.getStatus = some "COMPLETE" then
    match t.getDateTimeE with
    | Except.error _ => { state := s, order := order, aborted := true }
    | Except.ok dt =>
      let execQty := t.getTotalFilledQuantity - order.filled
      let execInfo : ExecInfo :=
        { price := t.getAvgFilledPrice, quantity := execQty, commission := 0, dateTime := dt }
      let r := order.addExecutionInfo execQty
      let sMut := updateOrder s r.order
      if r.aborted then { state := sMut, order := r.order, aborted := true }
      else
        let next :=
          if r.order.isActive then some sMut else unregisterOrder sMut r.order
        match next with
        | none => { state := sMut, order := r.order, aborted := true }
        | some s2 =>
          let eventType :=
            if r.order.isFilled then OrderEventType.FILLED
            else OrderEventType.PARTIALLY_FILLED
          { state := notify s2 { orderId := r.order.id, eventType := eventType,
                                 info := some (EventInfo.execRecord execInfo) },
            order := r.order, aborted := false }
  else
    { state := s, order := order, aborted := false }

/-- LiveBroker._onUserTrades: applies the events of a batch in list order,
looking each up in the registry and skipping events whose identifier has
no active order; an exception from `_onTrade` aborts the rest of the
batch (second component `true`). -/
def onUserTrades : List RawOrder → BrokerState → BrokerState × Bool
  | [], s => (s, false)
  | t :: rest, s =>
    match lookupId s t.getId with
    | none => onUserTrades rest s
    | some order =>
      let r := onTrade s order t
      if r.aborted then (r.state, true) else onUserTrades rest r.state

/-- The body of the `for order in orderBook` loop of
`TradeMonitor._getNewTrades`: an entry without a `norentm` field is
skipped; a `norentm` field that does not parse raises `ValueError`
(`.error`), aborting the whole call; an entry whose identifier is absent,
or not the identifier of any active order, or whose order history is
unavailable, is skipped; otherwise one `TradeEvent` wrapping the
order-book entry is appended per history entry whose fetch succeeded and
whose status is `CANCELED`, `REJECTED` or `COMPLETE` (history entries with
failed fetch, `OPEN`/`PENDING` status, or an unrecognized status are
skipped). -/
def collectNewTrades (active : List Order) (hist : String → Option (List HistoryEntry)) :
    List RawOrder → Except Unit (List RawOrder)
  | [] => Except.ok []
  | o :: rest =>
    match o.norentm with
    | none => collectNewTrades active hist rest
    | some rt =>
      match rt.parsed with
      | none => Except.error ()
      | some _ =>
        match o.norenordno with
        | none => collectNewTrades active hist rest
        | some oid =>
          if active.any (fun a => a.id = some oid) then
            match hist oid with
            | none => collectNewTrades active hist rest
            | some hs =>
              let evts := hs.filterMap (fun h =>
                if h.stat = "Not_Ok" then none
                else if h.status = "OPEN" ∨ h.status = "PENDING" then none
                else if h.status = "CANCELED" ∨ h.status = "REJECTED" ∨ h.status = "COMPLETE" then
                  some o
                else none)
              match collectNewTrades active hist rest with
              | Except.error e => Except.error e
              | Except.ok r => Except.ok (evts ++ r)
          else collectNewTrades active hist rest

/-- Stable insertion of an element into a list sorted by `tradeTime`: the
element goes after every element with a strictly smaller key and before
the first element with a key at least its own, so elements with equal
keys keep their original relative order. -/
def insertByTime (a : RawOrder) : List RawOrder → List RawOrder
  | [] => [a]
  | b :: l => if tradeTime b < tradeTime a then b :: insertByTime a l else a :: b :: l

/-- Stable sort by `tradeTime`, ascending.  A stable sort is unique as a
function of the input, so this models Python `sorted` with the
`getDateTime` key exactly. -/
def sortByTime : List RawOrder → List RawOrder
  | [] => []
  | a :: l => insertByTime a (sortByTime l)

/-- TradeMonitor._getNewTrades: an unavailable order book yields no
events; otherwise the collected events, sorted by remote event timestamp
so that older trades come first. -/
def getNewTrades (orderBook : Option (List RawOrder)) (active : List Order)
    (hist : String → Option (List HistoryEntry)) : Except Unit (List RawOrder) :=
  match orderBook with
  | none => Except.ok []
  | some l =>
    match collectNewTrades active hist l with
    | Except.error e => Except.error e
    | Except.ok r => Except.ok (sortByTime r)

/-- The queue event kind `TradeMonitor.ON_USER_TRADE`. -/
def ON_USER_TRADE : ℕ := 1

/-- The state the `TradeMonitor.run` loop owns: the high-water mark
`__lastTradeTime` and the hand-off queue of batches. -/
structure MonitorState where
  lastTradeTime : ℕ
  queue : List (ℕ × List RawOrder)
deriving DecidableEq, Repr

/-- One cycle of the `TradeMonitor.run` loop with the remote responses of
that cycle: fetch the new trades (any exception is caught and logged,
leaving the state unchanged); when the result is non-empty, set the
high-water mark to the timestamp of the last (newest) event and put the
whole batch on the hand-off queue. -/
def runCycle (orderBook : Option (List RawOrder)) (active : List Order)
    (hist : String → Option (List HistoryEntry)) (ms : MonitorState) : MonitorState :=
  match getNewTrades orderBook active hist with
  | Except.error _ => ms
  | Except.ok trades =>
    match trades.getLast? with
    | none => ms
    | some lastTrade =>
      { lastTradeTime := tradeTime lastTrade,
        queue := ms.queue ++ [(ON_USER_TRADE, trades)] }

/-- Outcome of the gateway placement call as `submitOrder` observes it:
`exn` covers an api exception, a `None` response and a response whose
`stat` is not `Ok` (all three are raised by `__placeOrder` and caught in
`submitOrder`, which logs and returns); `ack` is a response with `stat =
Ok`, carrying `norenordno` and the parsed `request_time`. -/
inductive PlaceOutcome where
  | exn
  | ack (orderId : String) (ts : ℕ)
deriving DecidableEq, Repr

/-- LiveBroker.submitOrder.  An order not in the `Initial` state raises.
Otherwise the order is normalized (all-or-none off, good-till-canceled
on); a placement failure is logged and the call returns with nothing
registered; on an acknowledgment the order is stamped with the remote
identifier and timestamp, registered, and switched to `SUBMITTED` without
any notification.  The marshalling of the gateway call arguments
(exchange, symbol, price fields) is not modelled; `resp` stands for the
gateway response.  A `.error` result models a raised exception
(`registerOrder` and `setSubmitted` assertion failures included). -/
def submitOrder (s : BrokerState) (order : Order) (resp : PlaceOutcome) :
    Except String (BrokerState × Order) :=
  if order.isInitial then
    let o1 : Order := { order with allOrNone := false, goodTillCanceled := true }
    match resp with
    | PlaceOutcome.exn => Except.ok (s, o1)
    | PlaceOutcome.ack orderId ts =>
      match o1.setSubmitted orderId ts with
      | none => Except.error "assertion failed in setSubmitted"
      | some o2 =>
        match registerOrder s o2 with
        | none => Except.error "assertion failed in registerOrder"
        | some s1 =>
          match o2.switchState OrderState.SUBMITTED with
          | Except.error e => Except.error e
          | Except.ok o3 => Except.ok (updateOrder s1 o3, o3)
  else Except.error "The order was already processed"

/-- Outcome of `cancelOrder`: the result (a `.error` models a raised
exception), the broker state and order object reached, and whether the
gateway cancellation call was made. -/
structure CancelOutcome where
  result : Except String Unit
  state : BrokerState
  order : Order
  gatewayCalled : Bool

/-- LiveBroker.cancelOrder: raises when the identifier of the order has
no registered order, or when the registered order is already filled, in
both cases before the gateway cancellation call; otherwise calls the
gateway, unregisters, switches the order to `CANCELED`, refreshes the
account balance (not modelled: it only touches cash, which no claim
observes) and notifies with the user-requested-cancellation message. -/
def cancelOrder (s : BrokerState) (order : Order) : CancelOutcome :=
  match lookupId s order.id with
  | none =>
    { result := Except.error "The order is not active anymore",
      state := s, order := order, gatewayCalled := false }
  | some activeOrder =>
    if activeOrder.isFilled then
      { result := Except.error "cannot cancel an order that has already been filled",
        state := s, order := order, gatewayCalled := false }
    else
      match unregisterOrder s order with
      | none =>
        { result := Except.error "assertion failed in unregisterOrder",
          state := s, order := order, gatewayCalled := true }
      | some s1 =>
        match order.switchState OrderState.CANCELED with
        | Except.error e =>
          { result := Except.error e, state := s1, order := order, gatewayCalled := true }
        | Except.ok o2 =>
          { result := Except.ok (),
            state := notify s1 { orderId := o2.id, eventType := OrderEventType.CANCELED,
                                 info := some (EventInfo.message "User requested cancellation") },
            order := o2, gatewayCalled := true }

/-- The order-class argument of `LiveBroker._createOrder` (the source
passes the `pyalgotrade` order class itself). -/
inductive OrderClass where
  | marketOrder
  | limitOrder
  | stopOrder
  | stopLimitOrder
deriving DecidableEq, Repr

/-- The action remapping of `_createOrder`: `BUY_TO_COVER` to `BUY` and
`SELL_SHORT` to `SELL`; the dictionary covers every action, so the
`None` default never fires. -/
def remapAction (a : Action) : Option Action :=
  match a with
  | Action.BUY_TO_COVER => some Action.BUY
  | Action.BUY => some Action.BUY
  | Action.SELL_SHORT => some Action.SELL
  | Action.SELL => some Action.SELL

/-- LiveBroker._createOrder: remaps the action and constructs a fresh
order of the requested class in the `Initial` state; a `MarketOrder` and
a `StopOrder` have no limit price, a `MarketOrder` and a `LimitOrder`
have no stop price.  The unreachable unmapped-action branch raises. -/
def createOrder (orderType : OrderClass) (action : Action) (instrument : String)
    (quantity : ℚ) (price : Option ℚ) (stopPrice : Option ℚ) : Except String Order :=
  match remapAction action with
  | none => Except.error "Only BUY and SELL orders are supported"
  | some a =>
    match orderType with
    | OrderClass.marketOrder =>
      Except.ok { id := none, typ := OrderTypeKind.MARKET, action := a,
                  instrument := instrument, quantity := quantity, filled := 0,
                  limitPrice := none, stopPrice := none, state := OrderState.INITIAL,
                  allOrNone := false, goodTillCanceled := false, submitDateTime := none }
    | OrderClass.limitOrder =>
      Except.ok { id := none, typ := OrderTypeKind.LIMIT, action := a,
                  instrument := instrument, quantity := quantity, filled := 0,
                  limitPrice := price, stopPrice := none, state := OrderState.INITIAL,
                  allOrNone := false, goodTillCanceled := false, submitDateTime := none }
    | OrderClass.stopOrder =>
      Except.ok { id := none, typ := OrderTypeKind.STOP, action := a,
                  instrument := instrument, quantity := quantity, filled := 0,
                  limitPrice := none, stopPrice := stopPrice, state := OrderState.INITIAL,
                  allOrNone := false, goodTillCanceled := false, submitDateTime := none }
    | OrderClass.stopLimitOrder =>
      Except.ok { id := none, typ := OrderTypeKind.STOP_LIMIT, action := a,
                  instrument := instrument, quantity := quantity, filled := 0,
                  limitPrice := price, stopPrice := stopPrice, state := OrderState.INITIAL,
                  allOrNone := false, goodTillCanceled := false, submitDateTime := none }

/-- LiveBroker.createMarketOrder. -/
def createMarketOrder (action : Action) (instrument : String) (quantity : ℚ) :
    Except String Order :=
  createOrder OrderClass.marketOrder action instrument quantity none none

/-- LiveBroker.createLimitOrder. -/
def createLimitOrder (action : Action) (instrument : String) (limitPrice : ℚ)
    (quantity : ℚ) : Except String Order :=
  createOrder OrderClass.limitOrder action instrument quantity (some limitPrice) none

/-- LiveBroker.createStopOrder: note the source passes the `LimitOrder`
class, a `None` price, and the stop price in the unused `stopPrice`
argument slot. -/
def createStopOrder (action : Action) (instrument : String) (stopPrice : ℚ)
    (quantity : ℚ) : Except String Order :=
  createOrder OrderClass.limitOrder action instrument quantity none (some stopPrice)

/-- LiveBroker.createStopLimitOrder: note the source passes the
`LimitOrder` class. -/
def createStopLimitOrder (action : Action) (instrument : String) (stopPrice : ℚ)
    (limitPrice : ℚ) (quantity : ℚ) : Except String Order :=
  createOrder OrderClass.limitOrder action instrument quantity (some limitPrice)
    (some stopPrice)

/-- The order of the C2 scenario: requested quantity 100, accepted,
nothing filled yet. -/
def c2Order : Order :=
  { id := some "O1", typ := OrderTypeKind.LIMIT, action := Action.BUY,
    instrument := "NFO|X", quantity := 100, filled := 0, limitPrice := some 200,
    stopPrice := none, state := OrderState.ACCEPTED, allOrNone := false,
    goodTillCanceled := true, submitDateTime := some 1 }

/-- Broker state of the C2 scenario: the order is registered, nothing
notified yet. -/
def c2State : BrokerState :=
  { activeOrders := fun k => if k = "O1" then some c2Order else none,
    notifications := [] }

/-- First remote report of the C2 scenario: cumulative filled 40 at
timestamp 10. -/
def c2Report1 : RawOrder :=
  { norenordno := some "O1", status := some "COMPLETE", rejreason := none,
    avgprc := some 200, fillshares := some 40, norentm := some ⟨some 10⟩ }

/-- Second remote report of the C2 scenario: cumulative filled 100 at the
later timestamp 20. -/
def c2Report2 : RawOrder :=
  { norenordno := some "O1", status := some "COMPLETE", rejreason := none,
    avgprc := some 200, fillshares := some 100, norentm := some ⟨some 20⟩ }

/-- Registered order of the C5 scenario. -/
def c5Order : Order :=
  { id := some "O2", typ := OrderTypeKind.LIMIT, action := Action.BUY,
    instrument := "NFO|X", quantity := 50, filled := 0, limitPrice := some 10,
    stopPrice := none, state := OrderState.ACCEPTED, allOrNone := false,
    goodTillCanceled := true, submitDateTime := some 1 }

/-- Broker state of the C5 scenario. -/
def c5State : BrokerState :=
  { activeOrders := fun k => if k = "O2" then some c5Order else none,
    notifications := [] }

/-- Trade event of the C5 scenario: remote status `REJECTED` with reason
`insufficient margin`. -/
def c5Trade : RawOrder :=
  { norenordno := some "O2", status := some "REJECTED",
    rejreason := some "insufficient margin", avgprc := none, fillshares := none,
    norentm := some ⟨some 7⟩ }

/-- Registered order of the C1 scenario, still registered in both cycles
because the dispatch side has not yet consumed the first batch. -/
def c1Order : Order :=
  { id := some "O3", typ := OrderTypeKind.LIMIT, action := Action.BUY,
    instrument := "NFO|X", quantity := 75, filled := 0, limitPrice := some 5,
    stopPrice := none, state := OrderState.ACCEPTED, allOrNone := false,
    goodTillCanceled := true, submitDateTime := some 1 }

/-- The order-book entry of the C1 scenario, identical in both cycles:
the same terminal trade with remote timestamp 5. -/
def c1Entry : RawOrder :=
  { norenordno := some "O3", status := some "COMPLETE", rejreason := none,
    avgprc := some 5, fillshares := some 75, norentm := some ⟨some 5⟩ }

/-- Order history of the C1 scenario: one successfully fetched `COMPLETE`
entry for the order. -/
def c1Hist : String → Option (List HistoryEntry) :=
  fun i => if i = "O3" then some [{ stat := "Ok", status := "COMPLETE" }] else none

/-- Active orders of the C9 scenario. -/
def c9Active : List Order :=
  [{ id := some "O4", typ := OrderTypeKind.LIMIT, action := Action.BUY,
     instrument := "NFO|X", quantity := 10, filled := 0, limitPrice := some 5,
     stopPrice := none, state := OrderState.ACCEPTED, allOrNone := false,
     goodTillCanceled := true, submitDateTime := some 1 },
   { id := some "O5", typ := OrderTypeKind.LIMIT, action := Action.BUY,
     instrument := "NFO|X", quantity := 10, filled := 0, limitPrice := some 5,
     stopPrice := none, state := OrderState.ACCEPTED, allOrNone := false,
     goodTillCanceled := true, submitDateTime := some 2 }]

/-- Order histories of the C9 scenario. -/
def c9Hist : String → Option (List HistoryEntry) :=
  fun i =>
    if i = "O4" ∨ i = "O5" then some [{ stat := "Ok", status := "COMPLETE" }] else none

/-- Order-book entry of the C9 scenario whose `norentm` field is present
but does not parse in the `H:M:S d-m-Y` format. -/
def c9Bad : RawOrder :=
  { norenordno := some "O4", status := some "COMPLETE", rejreason := none,
    avgprc := some 5, fillshares := some 10, norentm := some ⟨none⟩ }

/-- A normal terminal order-book entry of the C9 scenario. -/
def c9Good : RawOrder :=
  { norenordno := some "O5", status := some "COMPLETE", rejreason := none,
    avgprc := some 5, fillshares := some 10, norentm := some ⟨some 9⟩ }

/-- Initial order of the C7 witness scenario. -/
def c7Order : Order :=
  { id := none, typ := OrderTypeKind.LIMIT, action := Action.BUY,
    instrument := "NFO|X", quantity := 25, filled := 0, limitPrice := some 5,
    stopPrice := none, state := OrderState.INITIAL, allOrNone := true,
    goodTillCanceled := false, submitDateTime := none }

/-- Empty broker state of the C7 witness scenario. -/
def c7State : BrokerState :=
  { activeOrders := fun _ => none, notifications := [] }

/-- Already-submitted order of the C7 witness scenario: a realistic
resubmission target, in the `SUBMITTED` state with its remote identifier
already set. -/
def c7Resubmit : Order :=
  { id := some "N8", typ := OrderTypeKind.LIMIT, action := Action.BUY,
    instrument := "NFO|X", quantity := 25, filled := 0, limitPrice := some 5,
    stopPrice := none, state := OrderState.SUBMITTED, allOrNone := false,
    goodTillCanceled := true, submitDateTime := some 2 }

/-- State of the C8 witness scenario: one registered, already filled
order, and one order that is not registered at all. -/
def c8Filled : Order :=
  { id := some "O6", typ := OrderTypeKind.LIMIT, action := Action.BUY,
    instrument := "NFO|X", quantity := 10, filled := 10, limitPrice := some 5,
    stopPrice := none, state := OrderState.FILLED, allOrNone := false,
    goodTillCanceled := true, submitDateTime := some 1 }

/-- Unregistered order of the C8 witness scenario. -/
def c8Unknown : Order :=
  { id := some "O7", typ := OrderTypeKind.LIMIT, action := Action.BUY,
    instrument := "NFO|X", quantity := 10, filled := 0, limitPrice := some 5,
    stopPrice := none, state := OrderState.ACCEPTED, allOrNone := false,
    goodTillCanceled := true, submitDateTime := some 1 }

/-- Broker state of the C8 witness scenario. -/
def c8State : BrokerState :=
  { activeOrders := fun k => if k = "O6" then some c8Filled else none,
    notifications := [] }

/-- Comparison of events by remote event timestamp. -/
def timeLe (x y : RawOrder) : Prop := tradeTime x ≤ tradeTime y

/-- Order-book entries of the C6 witness scenario: two events out of
timestamp order. -/
def c6Entry1 : RawOrder :=
  { norenordno := some "O8", status := some "COMPLETE", rejreason := none,
    avgprc := some 5, fillshares := some 10, norentm := some ⟨some 9⟩ }

/-- Second order-book entry of the C6 witness scenario, with an earlier
timestamp than the first. -/
def c6Entry2 : RawOrder :=
  { norenordno := some "O8", status := some "COMPLETE", rejreason := none,
    avgprc := some 5, fillshares := some 10, norentm := some ⟨some 4⟩ }

/-- Active orders of the C6 witness scenario. -/
def c6Active : List Order :=
  [{ id := some "O8", typ := OrderTypeKind.LIMIT, action := Action.BUY,
     instrument := "NFO|X", quantity := 10, filled := 0, limitPrice := some 5,
     stopPrice := none, state := OrderState.ACCEPTED, allOrNone := false,
     goodTillCanceled := true, submitDateTime := some 1 }]

/-- Order histories of the C6 witness scenario. -/
def c6Hist : String → Option (List HistoryEntry) :=
  fun i => if i = "O8" then some [{ stat := "Ok", status := "COMPLETE" }] else none

/-- Registered order of the C3 counterexample: quantity 100, accepted. -/
def c3Order : Order :=
  { id := some "O9", typ := OrderTypeKind.LIMIT, action := Action.BUY,
    instrument := "NFO|X", quantity := 100, filled := 0, limitPrice := some 5,
    stopPrice := none, state := OrderState.ACCEPTED, allOrNone := false,
    goodTillCanceled := true, submitDateTime := some 1 }

/-- Broker state of the C3 counterexample. -/
def c3State : BrokerState :=
  { activeOrders := fun k => if k = "O9" then some c3Order else none,
    notifications := [] }

/-- C3 first event: cumulative filled 40. -/
def c3e40 : RawOrder :=
  { norenordno := some "O9", status := some "COMPLETE", rejreason := none,
    avgprc := some 5, fillshares := some 40, norentm := some ⟨some 10⟩ }

/-- C3 second event: cumulative filled 30, smaller than the recorded 40. -/
def c3e30 : RawOrder :=
  { norenordno := some "O9", status := some "COMPLETE", rejreason := none,
    avgprc := some 5, fillshares := some 30, norentm := some ⟨some 20⟩ }

/-- The events of a batch carrying a given remote identifier, in batch
order. -/
def eventsFor (id : String) (ts : List RawOrder) : List RawOrder :=
  ts.filter (fun t => decide (t.norenordno = some id))

/-- The registered order after an applied, non-completing `COMPLETE`
event with cumulative quantity `c`. -/
def completeUpd (o : Order) (c : ℚ) : Order :=
  { o with filled := roundQuantity c, state := OrderState.PARTIALLY_FILLED }

/-- Entry-wise effect of a batch on one registered order: a rejected or
canceled event removes it; a `COMPLETE` event removes it when nothing
remains after the quantized update and otherwise leaves the partially
filled order; any other status leaves it unchanged. -/
def finalEntry (o : Order) : List RawOrder → Option Order
  | [] => some o
  | t :: rest =>
    if t.getStatus = some "REJECTED" ∨ t.getStatus = some "CANCELED" then none
    else if t.getStatus = some "COMPLETE" then
      (if roundQuantity (o.quantity - roundQuantity t.getTotalFilledQuantity) = 0 then none
       else finalEntry (completeUpd o t.getTotalFilledQuantity) rest)
    else finalEntry o rest

/-- Two orders agreeing on every field except the filled quantity and the
lifecycle state. -/
def SameCore (a b : Order) : Prop :=
  a.id = b.id ∧ a.typ = b.typ ∧ a.action = b.action ∧ a.instrument = b.instrument ∧
  a.quantity = b.quantity ∧ a.limitPrice = b.limitPrice ∧ a.stopPrice = b.stopPrice ∧
  a.allOrNone = b.allOrNone ∧ a.goodTillCanceled = b.goodTillCanceled ∧
  a.submitDateTime = b.submitDateTime

/-- Well-formedness of the registry as maintained by the engine: every
registered order carries its key as remote identifier, is in the
`ACCEPTED` or `PARTIALLY_FILLED` state (the dispatch loop promotes
`SUBMITTED` orders before applying trade batches, and terminal orders are
unregistered), and its quantities are at the instrument quantization. -/
def WFState (s : BrokerState) : Prop :=
  ∀ id o, s.activeOrders id = some o →
    o.id = some id ∧
    (o.state = OrderState.ACCEPTED ∨ o.state = OrderState.PARTIALLY_FILLED) ∧
    Quantized o.quantity ∧ Quantized o.filled

/-- A batch as the monitor delivers it, against a registry: `COMPLETE`
events have resolvable timestamps, and report a cumulative quantity
within the requested quantity of the matching registered order. -/
def SafeBatch (ts : List RawOrder) (s : BrokerState) : Prop :=
  ∀ t ∈ ts, t.getStatus = some "COMPLETE" →
    (∃ dt, t.getDateTimeE = Except.ok dt) ∧
    (∀ id o, t.getId = some id → s.activeOrders id = some o →
      t.getTotalFilledQuantity ≤ o.quantity)

example : roundQuantity 40 = 40 := by norm_num [roundQuantity, round_eq]

example : roundQuantity (6 / 1000) = 1 / 100 := by
  norm_num [roundQuantity, round_eq]

/-! ## Properties of the quantization -/

theorem quantized_roundQuantity (q : ℚ) : Quantized (roundQuantity q) :=
  ⟨round (q * 100), rfl⟩

theorem roundQuantity_eq_of_quantized {q : ℚ} (h : Quantized q) : roundQuantity q = q := by
  obtain ⟨n, rfl⟩ := h
  unfold roundQuantity
  have h1 : (n : ℚ) / 100 * 100 = (n : ℚ) := by field_simp
  rw [h1, round_intCast]

theorem Quantized.sub {a b : ℚ} (ha : Quantized a) (hb : Quantized b) :
    Quantized (a - b) := by
  obtain ⟨m, rfl⟩ := ha
  obtain ⟨n, rfl⟩ := hb
  exact ⟨m - n, by push_cast; ring⟩

theorem roundQuantity_mono {a b : ℚ} (h : a ≤ b) : roundQuantity a ≤ roundQuantity b := by
  unfold roundQuantity
  have h1 : round (a * 100) ≤ round (b * 100) := by
    rw [round_eq, round_eq]
    exact Int.floor_mono (by linarith)
  have h2 : ((round (a * 100) : ℤ) : ℚ) ≤ ((round (b * 100) : ℤ) : ℚ) := by
    exact_mod_cast h1
  linarith

/-! ## C10: stop-order factory methods -/

/-- C10: for every action, instrument, quantity and price arguments,
`createStopOrder` and `createStopLimitOrder` build and return a limit
order (order type `LIMIT`), never a stop or stop-limit order; the order
returned by `createStopOrder` has no limit price, and the stop price
argument is discarded by both. -/
theorem createStop_factories_return_limit_orders :
    ∀ (action : Action) (instrument : String) (stopPrice limitPrice quantity : ℚ),
      (∃ o : Order, createStopOrder action instrument stopPrice quantity = Except.ok o ∧
        o.typ = OrderTypeKind.LIMIT ∧ o.limitPrice = none) ∧
      (∃ o : Order,
        createStopLimitOrder action instrument stopPrice limitPrice quantity = Except.ok o ∧
        o.typ = OrderTypeKind.LIMIT ∧ o.limitPrice = some limitPrice) ∧
      (∀ sp2 : ℚ,
        createStopOrder action instrument stopPrice quantity =
          createStopOrder action instrument sp2 quantity ∧
        createStopLimitOrder action instrument stopPrice limitPrice quantity =
          createStopLimitOrder action instrument sp2 limitPrice quantity) := by
  intro a i sp lp q
  cases a <;>
    simp [createStopOrder, createStopLimitOrder, createOrder, remapAction]

/-! ## C2: partial fill followed by completion -/

/-- C2: for an order with requested quantity 100 whose remote history
reports cumulative filled quantity 40 and then 100 at a later timestamp,
processing the two reports yields exactly one `PARTIALLY_FILLED`
notification with incremental fill 40 followed by exactly one `FILLED`
notification with incremental fill 60, and the order is still registered
after the first report and unregistered only after the second. -/
theorem onUserTrades_partial_then_full_fill :
    (onUserTrades [c2Report1, c2Report2] c2State).1.notifications =
      [{ orderId := some "O1", eventType := OrderEventType.PARTIALLY_FILLED,
         info := some (EventInfo.execRecord
           { price := 200, quantity := 40, commission := 0, dateTime := some 10 }) },
       { orderId := some "O1", eventType := OrderEventType.FILLED,
         info := some (EventInfo.execRecord
           { price := 200, quantity := 60, commission := 0, dateTime := some 20 }) }] ∧
    (onUserTrades [c2Report1] c2State).1.activeOrders "O1" =
      some { c2Order with filled := 40, state := OrderState.PARTIALLY_FILLED } ∧
    (onUserTrades [c2Report1, c2Report2] c2State).1.activeOrders "O1" = none ∧
    (onUserTrades [c2Report1, c2Report2] c2State).2 = false := by
  simp [onUserTrades, onTrade, lookupId, notify, updateOrder, unregisterOrder,
    c2State, c2Order, c2Report1, c2Report2, RawOrder.getStatus, RawOrder.getId,
    RawOrder.getDateTimeE, RawOrder.getTotalFilledQuantity, RawOrder.getAvgFilledPrice,
    Order.addExecutionInfo, Order.getRemaining, Order.switchState, Order.isActive,
    Order.isFilled, validTransition]
  norm_num [roundQuantity, round_eq]
  decide

/-! ## C5: rejected and canceled trade events -/

/-- C5 counterexample: a `REJECTED` event whose rejection reason is
present produces a `CANCELED` notification whose event info is `none`;
the reason is only logged, so the emitted notification does not carry it,
contrary to the claim. -/
theorem onTrade_rejected_reason_not_carried :
    c5Trade.getRejectedReason = some "insufficient margin" ∧
    (onUserTrades [c5Trade] c5State).1.notifications =
      [{ orderId := some "O2", eventType := OrderEventType.CANCELED, info := none }] := by
  constructor
  · rfl
  · simp [onUserTrades, onTrade, lookupId, notify, unregisterOrder, c5State, c5Order,
      c5Trade, RawOrder.getStatus, RawOrder.getId, Order.switchState, validTransition]

/-- C5 amended: whenever a trade event with status `REJECTED` or
`CANCELED` matches a registered, still-active order, the order is
unregistered, transitioned to the `CANCELED` state, and one `CANCELED`
notification is emitted whose event info is `none` (the rejection reason,
when present, is logged but not carried in the notification). -/
theorem onTrade_rejected_cancels (s : BrokerState) (order : Order) (t : RawOrder)
    (id : String) (hreg : s.activeOrders id = some order) (hid : order.id = some id)
    (hact : order.isActive = true)
    (hst : t.getStatus = some "REJECTED" ∨ t.getStatus = some "CANCELED") :
    (onTrade s order t).aborted = false ∧
    (onTrade s order t).state.activeOrders id = none ∧
    (onTrade s order t).order.state = OrderState.CANCELED ∧
    (onTrade s order t).state.notifications =
      s.notifications ++
        [{ orderId := some id, eventType := OrderEventType.CANCELED, info := none }] := by
  have hvalid : validTransition order.state OrderState.CANCELED = true := by
    unfold Order.isActive at hact
    cases h : order.state <;> rw [h] at hact <;> simp_all [validTransition]
  unfold onTrade
  rw [if_pos hst]
  simp only [unregisterOrder, hid, hreg, Order.switchState, hvalid, if_true]
  simp [notify, hid]

/-- C5 witness: the amended theorem applied to the concrete scenario. -/
theorem onTrade_rejected_cancels_witness :
    (onTrade c5State c5Order c5Trade).state.activeOrders "O2" = none ∧
    (onTrade c5State c5Order c5Trade).order.state = OrderState.CANCELED :=
  ⟨(onTrade_rejected_cancels c5State c5Order c5Trade "O2" (by simp [c5State])
      (by simp [c5Order]) (by simp [c5Order, Order.isActive]) (Or.inl rfl)).2.1,
   (onTrade_rejected_cancels c5State c5Order c5Trade "O2" (by simp [c5State])
      (by simp [c5Order]) (by simp [c5Order, Order.isActive]) (Or.inl rfl)).2.2.1⟩

/-! ## C1: redelivery across poll cycles -/

/-- C1: two consecutive poll cycles observe the same terminal remote
entry while the order is still registered.  The first cycle emits the
batch and records the high-water mark 5; the second cycle, although the
event timestamp is not later than that high-water mark, emits the very
same batch again onto the hand-off queue.  `_getNewTrades` never reads
`__lastTradeTime`, so the claimed dedup does not happen. -/
theorem tradeMonitor_redelivers_at_high_water_mark :
    runCycle (some [c1Entry]) [c1Order] c1Hist { lastTradeTime := 0, queue := [] } =
      { lastTradeTime := 5, queue := [(ON_USER_TRADE, [c1Entry])] } ∧
    runCycle (some [c1Entry]) [c1Order] c1Hist
        (runCycle (some [c1Entry]) [c1Order] c1Hist { lastTradeTime := 0, queue := [] }) =
      { lastTradeTime := 5,
        queue := [(ON_USER_TRADE, [c1Entry]), (ON_USER_TRADE, [c1Entry])] } ∧
    tradeTime c1Entry ≤
      (runCycle (some [c1Entry]) [c1Order] c1Hist
        { lastTradeTime := 0, queue := [] }).lastTradeTime := by
  simp [runCycle, getNewTrades, collectNewTrades, sortByTime, insertByTime,
    c1Order, c1Entry, c1Hist, tradeTime]

/-! ## C9: entries with missing or unparseable timestamps -/

/-- C9 counterexample: an entry with a present but unparseable timestamp
makes the whole `_getNewTrades` call raise `ValueError`, so the remaining
entries of that cycle are NOT processed: with the malformed entry present
the cycle yields an exception and no events, although the good entry
alone would have produced an event. -/
theorem getNewTrades_unparseable_timestamp_aborts_cycle :
    getNewTrades (some [c9Bad, c9Good]) c9Active c9Hist = Except.error () ∧
    getNewTrades (some [c9Good]) c9Active c9Hist = Except.ok [c9Good] := by
  constructor
  · simp [getNewTrades, collectNewTrades, c9Bad]
  · simp [getNewTrades, collectNewTrades, sortByTime, insertByTime, c9Good, c9Active,
      c9Hist]

/-- C9 amended: an order-book entry whose timestamp field is missing is
discarded without emitting an event and the remaining entries of the
cycle are processed normally; an entry whose timestamp field is present
but not parseable raises, aborting the entire poll cycle (the run loop
catches the exception, so that cycle delivers nothing). -/
theorem collectNewTrades_timestamp_handling (e : RawOrder) (rest : List RawOrder)
    (active : List Order) (hist : String → Option (List HistoryEntry)) :
    (e.norentm = none →
      collectNewTrades active hist (e :: rest) = collectNewTrades active hist rest) ∧
    (∀ rt, e.norentm = some rt → rt.parsed = none →
      collectNewTrades active hist (e :: rest) = Except.error ()) := by
  constructor
  · intro h
    simp [collectNewTrades, h]
  · intro rt h hp
    simp [collectNewTrades, h, hp]

/-- C9 witness: the amended theorem applied at concrete entries. -/
theorem collectNewTrades_timestamp_handling_witness :
    (collectNewTrades c9Active c9Hist
        ({ norenordno := some "O4", status := some "COMPLETE", rejreason := none,
           avgprc := some 5, fillshares := some 10, norentm := none } :: [c9Good]) =
      collectNewTrades c9Active c9Hist [c9Good]) ∧
    collectNewTrades c9Active c9Hist (c9Bad :: [c9Good]) = Except.error () :=
  ⟨(collectNewTrades_timestamp_handling _ [c9Good] c9Active c9Hist).1 rfl,
   (collectNewTrades_timestamp_handling c9Bad [c9Good] c9Active c9Hist).2 ⟨none⟩ rfl rfl⟩

/-! ## C7: submitOrder -/

/-- C7: calling `submitOrder` on any order that is not in the `Initial`
state raises the fatal usage error, unconditionally — in particular for
every real resubmission target, whose remote identifier is already set.
Conversely, on an `Initial` order it never raises, and when the
placement is acknowledged it stamps the remote identifier and
acknowledgment timestamp on the order, registers it, switches it to
`SUBMITTED`, emits no notification, and touches no other registry entry.
The converse half assumes what holds of every `Initial` order and
acknowledgment in the engine: the order has no remote identifier yet
(`setSubmitted` assigns it only at submission) and the acknowledged
identifier is not already registered (remote identifiers are unique; a
collision would trip the `_registerOrder` assertion). -/
theorem submitOrder_spec (s : BrokerState) (order : Order) (resp : PlaceOutcome) :
    (¬ order.isInitial →
      submitOrder s order resp = Except.error "The order was already processed") ∧
    (order.isInitial → order.id = none →
      (∀ oid ts, resp = PlaceOutcome.ack oid ts → s.activeOrders oid = none) →
      (∀ e, ¬ submitOrder s order resp = Except.error e) ∧
      (∀ oid ts, resp = PlaceOutcome.ack oid ts →
        ∃ s' o', submitOrder s order resp = Except.ok (s', o') ∧
          o'.id = some oid ∧ o'.submitDateTime = some ts ∧
          o'.state = OrderState.SUBMITTED ∧
          s'.activeOrders oid = some o' ∧
          s'.notifications = s.notifications ∧
          (∀ k, k ≠ oid → s'.activeOrders k = s.activeOrders k))) := by
  constructor
  · intro hnot
    rw [submitOrder, if_neg hnot]
  · intro hinit hid hfresh
    constructor
    · intro e he
      rw [submitOrder, if_pos hinit] at he
      cases hresp : resp with
      | exn => rw [hresp] at he; simp at he
      | ack oid ts =>
        rw [hresp] at he
        have hfr := hfresh oid ts hresp
        simp only [Order.setSubmitted, hid, Or.inl rfl, if_true] at he
        simp only [registerOrder, hfr] at he
        have hinit2 : order.state = OrderState.INITIAL := hinit
        simp [Order.switchState, validTransition, hinit2, hfr] at he
    · intro oid ts hresp
      subst hresp
      have hfr := hfresh oid ts rfl
      have hinit2 : order.state = OrderState.INITIAL := hinit
      rw [submitOrder, if_pos hinit]
      simp only [Order.setSubmitted, hid, registerOrder, hfr, Order.switchState,
        validTransition, hinit2, updateOrder, true_or, if_true, reduceCtorEq,
        Option.some.injEq]
      refine ⟨_, _, rfl, rfl, rfl, rfl, ?_, rfl, ?_⟩
      · simp
      · intro k hk
        simp [hk]

/-- C7 witness: the theorem applied to a concrete already-submitted order
(the resubmission raises) and to a concrete initial order with an
acknowledged placement (registered, stamped, no notification). -/
theorem submitOrder_spec_witness :
    submitOrder c7State c7Resubmit (PlaceOutcome.ack "N9" 3) =
      Except.error "The order was already processed" ∧
    ∃ s' o', submitOrder c7State c7Order (PlaceOutcome.ack "N9" 3) = Except.ok (s', o') ∧
      o'.id = some "N9" ∧ o'.submitDateTime = some 3 ∧
      o'.state = OrderState.SUBMITTED ∧ s'.activeOrders "N9" = some o' ∧
      s'.notifications = c7State.notifications ∧
      (∀ k, k ≠ "N9" → s'.activeOrders k = c7State.activeOrders k) :=
  ⟨(submitOrder_spec c7State c7Resubmit (PlaceOutcome.ack "N9" 3)).1
      (by simp [c7Resubmit, Order.isInitial]),
   ((submitOrder_spec c7State c7Order (PlaceOutcome.ack "N9" 3)).2 rfl rfl
      (fun _ _ _ => rfl)).2 "N9" 3 rfl⟩

/-! ## C8: cancelOrder error paths -/

/-- C8: `cancelOrder` called with an order that is not registered, or
whose registered order is already filled, raises before the gateway
cancellation call is made, and leaves the registry, the notifications and
the order unchanged. -/
theorem cancelOrder_error_paths (s : BrokerState) (order : Order) :
    (lookupId s order.id = none →
      (∃ e, (cancelOrder s order).result = Except.error e) ∧
      (cancelOrder s order).gatewayCalled = false ∧
      (cancelOrder s order).state = s ∧ (cancelOrder s order).order = order) ∧
    (∀ ao, lookupId s order.id = some ao → ao.isFilled = true →
      (∃ e, (cancelOrder s order).result = Except.error e) ∧
      (cancelOrder s order).gatewayCalled = false ∧
      (cancelOrder s order).state = s ∧ (cancelOrder s order).order = order) := by
  constructor
  · intro h
    simp [cancelOrder, h]
  · intro ao h hf
    simp [cancelOrder, h, hf]

/-- C8 witness: the theorem applied to the concrete unregistered order
and to the concrete filled order. -/
theorem cancelOrder_error_paths_witness :
    ((cancelOrder c8State c8Unknown).gatewayCalled = false ∧
      (cancelOrder c8State c8Unknown).state = c8State) ∧
    ((cancelOrder c8State c8Filled).gatewayCalled = false ∧
      (cancelOrder c8State c8Filled).state = c8State) :=
  ⟨⟨((cancelOrder_error_paths c8State c8Unknown).1 (by simp [lookupId, c8State, c8Unknown])).2.1,
    ((cancelOrder_error_paths c8State c8Unknown).1 (by simp [lookupId, c8State, c8Unknown])).2.2.1⟩,
   ⟨((cancelOrder_error_paths c8State c8Filled).2 c8Filled
        (by simp [lookupId, c8State, c8Filled]) (by simp [c8Filled, Order.isFilled])).2.1,
    ((cancelOrder_error_paths c8State c8Filled).2 c8Filled
        (by simp [lookupId, c8State, c8Filled]) (by simp [c8Filled, Order.isFilled])).2.2.1⟩⟩

/-! ## C6: ordering of emitted batches and of their dispatch -/

theorem perm_insertByTime (a : RawOrder) (l : List RawOrder) :
    List.Perm (insertByTime a l) (a :: l) := by
  induction l with
  | nil => exact List.Perm.refl _
  | cons b t ih =>
    unfold insertByTime
    by_cases h : tradeTime b < tradeTime a
    · rw [if_pos h]
      exact (ih.cons b).trans (List.Perm.swap a b t)
    · rw [if_neg h]

theorem perm_sortByTime (l : List RawOrder) : List.Perm (sortByTime l) l := by
  induction l with
  | nil => exact List.Perm.refl _
  | cons a t ih =>
    unfold sortByTime
    exact (perm_insertByTime a (sortByTime t)).trans (ih.cons a)

theorem pairwise_insertByTime {a : RawOrder} {l : List RawOrder}
    (h : l.Pairwise timeLe) : (insertByTime a l).Pairwise timeLe := by
  induction l with
  | nil => simp [insertByTime]
  | cons b t ih =>
    rw [List.pairwise_cons] at h
    unfold insertByTime
    by_cases hba : tradeTime b < tradeTime a
    · rw [if_pos hba]
      rw [List.pairwise_cons]
      refine ⟨?_, ih h.2⟩
      intro x hx
      rcases List.mem_cons.mp ((perm_insertByTime a t).mem_iff.mp hx) with hx1 | hx2
      · subst hx1
        exact le_of_lt hba
      · exact h.1 x hx2
    · rw [if_neg hba]
      rw [List.pairwise_cons]
      refine ⟨?_, List.pairwise_cons.mpr h⟩
      intro x hx
      rcases List.mem_cons.mp hx with hx1 | hx2
      · subst hx1
        exact not_lt.mp hba
      · exact le_trans (not_lt.mp hba) (h.1 x hx2)

theorem pairwise_sortByTime (l : List RawOrder) : (sortByTime l).Pairwise timeLe := by
  induction l with
  | nil => simp [sortByTime]
  | cons a t ih =>
    unfold sortByTime
    exact pairwise_insertByTime ih

theorem filter_insertByTime (a : RawOrder) (l : List RawOrder) (k : ℕ) :
    (insertByTime a l).filter (fun o => decide (tradeTime o = k)) =
      if tradeTime a = k then a :: l.filter (fun o => decide (tradeTime o = k))
      else l.filter (fun o => decide (tradeTime o = k)) := by
  induction l with
  | nil =>
    by_cases hak : tradeTime a = k <;> simp [insertByTime, hak]
  | cons b t ih =>
    unfold insertByTime
    by_cases hba : tradeTime b < tradeTime a
    · rw [if_pos hba]
      by_cases hak : tradeTime a = k
      · have hbk : ¬ tradeTime b = k := by
          intro hbk
          rw [hak] at hba
          rw [hbk] at hba
          exact lt_irrefl k hba
        simp [List.filter_cons, ih, hak, hbk]
      · simp [List.filter_cons, ih, hak]
    · rw [if_neg hba]
      by_cases hak : tradeTime a = k <;> simp [List.filter_cons, hak]

theorem filter_sortByTime (l : List RawOrder) (k : ℕ) :
    (sortByTime l).filter (fun o => decide (tradeTime o = k)) =
      l.filter (fun o => decide (tradeTime o = k)) := by
  induction l with
  | nil => rfl
  | cons a t ih =>
    unfold sortByTime
    rw [filter_insertByTime]
    by_cases hak : tradeTime a = k <;> simp [List.filter_cons, hak, ih]

theorem onUserTrades_cons_none {s : BrokerState} {t : RawOrder}
    (h : lookupId s t.getId = none) (rest : List RawOrder) :
    onUserTrades (t :: rest) s = onUserTrades rest s := by
  rw [onUserTrades.eq_def]
  simp only [h]

theorem onUserTrades_cons_abort {s : BrokerState} {t : RawOrder} {order : Order}
    (h : lookupId s t.getId = some order) (hab : (onTrade s order t).aborted = true)
    (rest : List RawOrder) :
    onUserTrades (t :: rest) s = ((onTrade s order t).state, true) := by
  rw [onUserTrades.eq_def]
  simp [h, hab]

theorem onUserTrades_cons_step {s : BrokerState} {t : RawOrder} {order : Order}
    (h : lookupId s t.getId = some order) (hab : (onTrade s order t).aborted = false)
    (rest : List RawOrder) :
    onUserTrades (t :: rest) s = onUserTrades rest (onTrade s order t).state := by
  rw [onUserTrades.eq_def]
  simp [h, hab]

theorem onUserTrades_append (ts1 ts2 : List RawOrder) (s : BrokerState) :
    onUserTrades (ts1 ++ ts2) s =
      if (onUserTrades ts1 s).2 then onUserTrades ts1 s
      else onUserTrades ts2 (onUserTrades ts1 s).1 := by
  induction ts1 generalizing s with
  | nil => simp [onUserTrades]
  | cons t rest ih =>
    have hcons : (t :: rest) ++ ts2 = t :: (rest ++ ts2) := rfl
    rw [hcons]
    cases h : lookupId s t.getId with
    | none =>
      rw [onUserTrades_cons_none h, onUserTrades_cons_none h, ih]
    | some order =>
      by_cases ha : (onTrade s order t).aborted
      · rw [onUserTrades_cons_abort h ha, onUserTrades_cons_abort h ha]
        simp
      · have ha2 : (onTrade s order t).aborted = false := by
          simpa using ha
        rw [onUserTrades_cons_step h ha2, onUserTrades_cons_step h ha2, ih]

/-- C6: the batch a poll cycle emits is the stable ascending sort of the
collected events by remote event timestamp: it is sorted, it is a
permutation of the events in fetch order, ties keep their fetch order
(the sublist at any fixed timestamp is unchanged); and the dispatch side
applies a batch in exactly that list order: processing `ts1 ++ ts2`
processes `ts1` first and feeds the resulting state to `ts2` (unless
`ts1` raised, which ends the batch). -/
theorem getNewTrades_sorted_and_dispatched_in_order
    (ob raw l : List RawOrder) (active : List Order)
    (hist : String → Option (List HistoryEntry))
    (hc : collectNewTrades active hist ob = Except.ok raw)
    (hg : getNewTrades (some ob) active hist = Except.ok l) :
    l = sortByTime raw ∧
    l.Pairwise timeLe ∧
    List.Perm l raw ∧
    (∀ k : ℕ, l.filter (fun o => decide (tradeTime o = k)) =
      raw.filter (fun o => decide (tradeTime o = k))) ∧
    (∀ (ts1 ts2 : List RawOrder) (s : BrokerState),
      onUserTrades (ts1 ++ ts2) s =
        if (onUserTrades ts1 s).2 then onUserTrades ts1 s
        else onUserTrades ts2 (onUserTrades ts1 s).1) := by
  have hl : l = sortByTime raw := by
    rw [getNewTrades, hc] at hg
    exact (Except.ok.injEq _ _).mp hg.symm
  subst hl
  exact ⟨rfl, pairwise_sortByTime raw, perm_sortByTime raw,
    fun k => filter_sortByTime raw k, onUserTrades_append⟩

/-- C6 witness: the theorem applied to a concrete two-entry order book
whose events arrive out of timestamp order. -/
theorem getNewTrades_sorted_witness :
    ([c6Entry2, c6Entry1] : List RawOrder).Pairwise timeLe ∧
    List.Perm ([c6Entry2, c6Entry1] : List RawOrder) [c6Entry1, c6Entry2] := by
  have hc : collectNewTrades c6Active c6Hist [c6Entry1, c6Entry2] =
      Except.ok [c6Entry1, c6Entry2] := by
    simp [collectNewTrades, c6Entry1, c6Entry2, c6Active, c6Hist]
  have hg : getNewTrades (some [c6Entry1, c6Entry2]) c6Active c6Hist =
      Except.ok [c6Entry2, c6Entry1] := by
    rw [getNewTrades, hc]
    simp [sortByTime, insertByTime, c6Entry1, c6Entry2, tradeTime]
  have h := getNewTrades_sorted_and_dispatched_in_order [c6Entry1, c6Entry2]
    [c6Entry1, c6Entry2] [c6Entry2, c6Entry1] c6Active c6Hist hc hg
  exact ⟨h.2.1, h.2.2.1⟩

/-! ## C3: evolution of the filled quantity -/

theorem switchState_ok_fields {o o' : Order} {s' : OrderState}
    (h : o.switchState s' = Except.ok o') : o' = { o with state := s' } := by
  unfold Order.switchState at h
  by_cases hv : validTransition o.state s' = true
  · rw [if_pos hv] at h
    exact (Except.ok.injEq _ _).mp h.symm
  · rw [if_neg hv] at h
    exact absurd h (by simp)

/-- The order object returned by `_onTrade` on a `COMPLETE` event with a
resolvable timestamp is exactly the order returned by
`addExecutionInfo` at the incremental quantity. -/
theorem onTrade_complete_order (s : BrokerState) (order : Order) (t : RawOrder)
    (h1 : ¬ (t.getStatus = some "REJECTED" ∨ t.getStatus = some "CANCELED"))
    (h2 : t.getStatus = some "COMPLETE") {dt : Option ℕ}
    (hdt : t.getDateTimeE = Except.ok dt) :
    (onTrade s order t).order =
      (order.addExecutionInfo (t.getTotalFilledQuantity - order.filled)).order := by
  rw [onTrade, if_neg h1, if_pos h2, hdt]
  by_cases ha : (order.addExecutionInfo (t.getTotalFilledQuantity - order.filled)).aborted
  · simp only [ha, if_true]
  · simp only [ha, if_false, Bool.false_eq_true]
    cases hnext : (if (order.addExecutionInfo (t.getTotalFilledQuantity - order.filled)).order.isActive
        then some (updateOrder s (order.addExecutionInfo (t.getTotalFilledQuantity - order.filled)).order)
        else unregisterOrder (updateOrder s (order.addExecutionInfo (t.getTotalFilledQuantity - order.filled)).order)
          (order.addExecutionInfo (t.getTotalFilledQuantity - order.filled)).order) with
    | none => simp [hnext]
    | some s2 => simp [hnext]

/-- The order object returned by `_onTrade` on an event that is neither
`REJECTED`, `CANCELED` nor `COMPLETE` is unchanged. -/
theorem onTrade_other_order (s : BrokerState) (order : Order) (t : RawOrder)
    (h1 : ¬ (t.getStatus = some "REJECTED" ∨ t.getStatus = some "CANCELED"))
    (h2 : ¬ t.getStatus = some "COMPLETE") :
    (onTrade s order t).order = order := by
  rw [onTrade, if_neg h1, if_neg h2]

/-- The filled quantity of the order returned by `addExecutionInfo`:
either the call raised before the update (overfill), or the filled
quantity is the quantized sum. -/
theorem addExecutionInfo_filled (o : Order) (q : ℚ) :
    ((o.addExecutionInfo q).order.filled = o.filled ∧ o.getRemaining < q) ∨
    ((o.addExecutionInfo q).order.filled = roundQuantity (o.filled + q) ∧
      ¬ o.getRemaining < q) := by
  unfold Order.addExecutionInfo
  by_cases h : o.getRemaining < q
  · left
    simp [h]
  · right
    refine ⟨?_, h⟩
    simp only [if_neg h]
    cases hsw : Order.switchState { o with filled := roundQuantity (o.filled + q) }
        (if Order.getRemaining { o with filled := roundQuantity (o.filled + q) } = 0
          then OrderState.FILLED else OrderState.PARTIALLY_FILLED) with
    | ok o2 =>
      have := switchState_ok_fields hsw
      subst this
      simp [hsw]
    | error e => simp [hsw]

/-- C3 counterexample: a `COMPLETE` event whose cumulative filled
quantity (30) is below the recorded filled quantity (40) is applied with
a negative incremental fill, so the filled quantity decreases from 40 to
30: it is not monotonically non-decreasing as claimed. -/
theorem onTrade_filled_can_decrease :
    ((onUserTrades [c3e40] c3State).1.activeOrders "O9").map Order.filled = some 40 ∧
    ((onUserTrades [c3e40, c3e30] c3State).1.activeOrders "O9").map Order.filled = some 30 ∧
    ¬ (40 : ℚ) ≤ 30 := by
  refine ⟨?_, ?_, by norm_num⟩
  · simp [onUserTrades, onTrade, lookupId, notify, updateOrder, unregisterOrder,
      c3State, c3Order, c3e40, RawOrder.getStatus, RawOrder.getId,
      RawOrder.getDateTimeE, RawOrder.getTotalFilledQuantity, RawOrder.getAvgFilledPrice,
      Order.addExecutionInfo, Order.getRemaining, Order.switchState, Order.isActive,
      Order.isFilled, validTransition]
    norm_num [roundQuantity, round_eq]
  · simp [onUserTrades, onTrade, lookupId, notify, updateOrder, unregisterOrder,
      c3State, c3Order, c3e40, c3e30, RawOrder.getStatus, RawOrder.getId,
      RawOrder.getDateTimeE, RawOrder.getTotalFilledQuantity, RawOrder.getAvgFilledPrice,
      Order.addExecutionInfo, Order.getRemaining, Order.switchState, Order.isActive,
      Order.isFilled, validTransition]
    norm_num [roundQuantity, round_eq]

/-- C3 amended: across one applied trade event, the filled quantity of
the target order never exceeds the requested quantity (an over-large
execution record raises instead of overfilling), and it is non-decreasing
provided the event, when it is a `COMPLETE` report, carries a cumulative
filled quantity at least the currently recorded filled quantity (remote
cumulative reports are non-decreasing); the quantities are at the
instrument 2-decimal quantization. -/
theorem onTrade_filled_monotone_and_bounded (s : BrokerState) (order : Order)
    (t : RawOrder) (hq : Quantized order.quantity) (hf : Quantized order.filled)
    (hfq : order.filled ≤ order.quantity)
    (hmono : t.getStatus = some "COMPLETE" →
      order.filled ≤ t.getTotalFilledQuantity) :
    order.filled ≤ (onTrade s order t).order.filled ∧
    (onTrade s order t).order.filled ≤ order.quantity := by
  by_cases h1 : t.getStatus = some "REJECTED" ∨ t.getStatus = some "CANCELED"
  · rw [onTrade, if_pos h1]
    cases hu : unregisterOrder s order with
    | none =>
      simp only [hu]
      exact ⟨le_refl _, hfq⟩
    | some s1 =>
      cases hsw : order.switchState OrderState.CANCELED with
      | error e =>
        simp only [hu, hsw]
        exact ⟨le_refl _, hfq⟩
      | ok o2 =>
        have ho2 := switchState_ok_fields hsw
        subst ho2
        simp only [hu, hsw]
        exact ⟨le_refl _, hfq⟩
  · by_cases h2 : t.getStatus = some "COMPLETE"
    · cases hdtE : t.getDateTimeE with
      | error e =>
        rw [onTrade, if_neg h1, if_pos h2, hdtE]
        exact ⟨le_refl _, hfq⟩
      | ok dt =>
        rw [onTrade_complete_order s order t h1 h2 hdtE]
        have hc := hmono h2
        rcases addExecutionInfo_filled order (t.getTotalFilledQuantity - order.filled) with
          ⟨hfe, _⟩ | ⟨hfe, hno⟩
        · rw [hfe]
          exact ⟨le_refl _, hfq⟩
        · rw [hfe]
          have hsum : order.filled + (t.getTotalFilledQuantity - order.filled) =
              t.getTotalFilledQuantity := by ring
          rw [hsum]
          constructor
          · calc order.filled = roundQuantity order.filled :=
                  (roundQuantity_eq_of_quantized hf).symm
              _ ≤ roundQuantity t.getTotalFilledQuantity := roundQuantity_mono hc
          · have hrem : order.getRemaining = order.quantity - order.filled := by
              unfold Order.getRemaining
              exact roundQuantity_eq_of_quantized (hq.sub hf)
            rw [hrem] at hno
            have hle : t.getTotalFilledQuantity ≤ order.quantity := by linarith [not_lt.mp hno]
            calc roundQuantity t.getTotalFilledQuantity ≤ roundQuantity order.quantity :=
                roundQuantity_mono hle
              _ = order.quantity := roundQuantity_eq_of_quantized hq
    · rw [onTrade_other_order s order t h1 h2]
      exact ⟨le_refl _, hfq⟩

/-- C3 witness: the amended theorem applied to the concrete C2 scenario
order and its first report. -/
theorem onTrade_filled_monotone_and_bounded_witness :
    c2Order.filled ≤ (onTrade c2State c2Order c2Report1).order.filled ∧
    (onTrade c2State c2Order c2Report1).order.filled ≤ c2Order.quantity :=
  onTrade_filled_monotone_and_bounded c2State c2Order c2Report1
    ⟨10000, by norm_num [c2Order]⟩ ⟨0, by norm_num [c2Order]⟩
    (by norm_num [c2Order])
    (fun _ => by norm_num [c2Order, c2Report1, RawOrder.getTotalFilledQuantity])

/-! ## C4: idempotence of batch application

The registry after a batch is characterized entry-wise by `finalEntry`,
the effect of the subsequence of events carrying one identifier; this is
possible because the filled quantity an applied `COMPLETE` event leaves
behind is the quantized remote cumulative quantity, independent of the
previously recorded filled quantity. -/

theorem eventsFor_nil (id : String) : eventsFor id [] = [] := rfl

theorem eventsFor_cons_match {id : String} {t : RawOrder} (h : t.norenordno = some id)
    (rest : List RawOrder) : eventsFor id (t :: rest) = t :: eventsFor id rest := by
  simp [eventsFor, h]

theorem eventsFor_cons_nomatch {id : String} {t : RawOrder}
    (h : ¬ t.norenordno = some id) (rest : List RawOrder) :
    eventsFor id (t :: rest) = eventsFor id rest := by
  simp [eventsFor, h]

theorem finalEntry_cancel {o : Order} {t : RawOrder} (rest : List RawOrder)
    (h1 : t.getStatus = some "REJECTED" ∨ t.getStatus = some "CANCELED") :
    finalEntry o (t :: rest) = none := by
  simp only [finalEntry]
  rw [if_pos h1]

theorem status_complete_not_cancel {t : RawOrder} (h2 : t.getStatus = some "COMPLETE") :
    ¬ (t.getStatus = some "REJECTED" ∨ t.getStatus = some "CANCELED") := by
  rw [h2]
  simp

theorem finalEntry_complete {o : Order} {t : RawOrder} (rest : List RawOrder)
    (h2 : t.getStatus = some "COMPLETE") :
    finalEntry o (t :: rest) =
      if roundQuantity (o.quantity - roundQuantity t.getTotalFilledQuantity) = 0 then none
      else finalEntry (completeUpd o t.getTotalFilledQuantity) rest := by
  simp only [finalEntry]
  rw [if_neg (status_complete_not_cancel h2), if_pos h2]

theorem finalEntry_other {o : Order} {t : RawOrder} (rest : List RawOrder)
    (h1 : ¬ (t.getStatus = some "REJECTED" ∨ t.getStatus = some "CANCELED"))
    (h2 : ¬ t.getStatus = some "COMPLETE") :
    finalEntry o (t :: rest) = finalEntry o rest := by
  simp only [finalEntry]
  rw [if_neg h1, if_neg h2]

theorem sameCore_refl (a : Order) : SameCore a a := by
  unfold SameCore
  exact ⟨rfl, rfl, rfl, rfl, rfl, rfl, rfl, rfl, rfl, rfl⟩

theorem sameCore_trans {a b c : Order} (h1 : SameCore a b) (h2 : SameCore b c) :
    SameCore a c := by
  unfold SameCore at h1 h2 ⊢
  obtain ⟨e1, e2, e3, e4, e5, e6, e7, e8, e9, e10⟩ := h1
  obtain ⟨f1, f2, f3, f4, f5, f6, f7, f8, f9, f10⟩ := h2
  exact ⟨e1.trans f1, e2.trans f2, e3.trans f3, e4.trans f4, e5.trans f5, e6.trans f6,
    e7.trans f7, e8.trans f8, e9.trans f9, e10.trans f10⟩

theorem sameCore_completeUpd (o : Order) (c : ℚ) : SameCore o (completeUpd o c) := by
  unfold SameCore completeUpd
  exact ⟨rfl, rfl, rfl, rfl, rfl, rfl, rfl, rfl, rfl, rfl⟩

theorem completeUpd_congr {a b : Order} (h : SameCore a b) (c : ℚ) :
    completeUpd a c = completeUpd b c := by
  obtain ⟨e1, e2, e3, e4, e5, e6, e7, e8, e9, e10⟩ := h
  cases a
  cases b
  simp_all [completeUpd]

theorem completeUpd_idem (o : Order) (c c2 : ℚ) :
    completeUpd (completeUpd o c) c2 = completeUpd o c2 := rfl

theorem finalEntry_sameCore {es : List RawOrder} :
    ∀ {o o' : Order}, finalEntry o es = some o' → SameCore o o' := by
  induction es with
  | nil =>
    intro o o' h
    simp only [finalEntry, Option.some.injEq] at h
    subst h
    exact sameCore_refl o
  | cons t rest ih =>
    intro o o' h
    by_cases h1 : t.getStatus = some "REJECTED" ∨ t.getStatus = some "CANCELED"
    · rw [finalEntry_cancel rest h1] at h
      cases h
    · by_cases h2 : t.getStatus = some "COMPLETE"
      · rw [finalEntry_complete rest h2] at h
        by_cases hz : roundQuantity (o.quantity - roundQuantity t.getTotalFilledQuantity) = 0
        · rw [if_pos hz] at h
          cases h
        · rw [if_neg hz] at h
          exact sameCore_trans (sameCore_completeUpd o t.getTotalFilledQuantity) (ih h)
      · rw [finalEntry_other rest h1 h2] at h
        exact ih h

theorem sameCore_symm {a b : Order} (h : SameCore a b) : SameCore b a := by
  obtain ⟨e1, e2, e3, e4, e5, e6, e7, e8, e9, e10⟩ := h
  exact ⟨e1.symm, e2.symm, e3.symm, e4.symm, e5.symm, e6.symm, e7.symm, e8.symm,
    e9.symm, e10.symm⟩

theorem finalEntry_absorb {es : List RawOrder} :
    ∀ {o o' : Order}, finalEntry o es = some o' → finalEntry o' es = some o' := by
  induction es with
  | nil =>
    intro o o' h
    simp only [finalEntry, Option.some.injEq] at h
    subst h
    rfl
  | cons t rest ih =>
    intro o o' h
    by_cases h1 : t.getStatus = some "REJECTED" ∨ t.getStatus = some "CANCELED"
    · rw [finalEntry_cancel rest h1] at h
      cases h
    · by_cases h2 : t.getStatus = some "COMPLETE"
      · rw [finalEntry_complete rest h2] at h
        by_cases hz : roundQuantity (o.quantity - roundQuantity t.getTotalFilledQuantity) = 0
        · rw [if_pos hz] at h
          cases h
        · rw [if_neg hz] at h
          have hq : o'.quantity = o.quantity :=
            ((finalEntry_sameCore h).2.2.2.2.1).symm.trans
              ((sameCore_completeUpd o t.getTotalFilledQuantity).2.2.2.2.1).symm
          rw [finalEntry_complete rest h2, hq, if_neg hz,
            completeUpd_congr (sameCore_symm (finalEntry_sameCore h)) _,
            completeUpd_idem]
          exact h
      · rw [finalEntry_other rest h1 h2] at h
        rw [finalEntry_other rest h1 h2]
        exact ih h

/-- Effect of `_onTrade` on the registry for a rejected or canceled event
matching a registered active order: no raise, and exactly the target
entry is removed. -/
theorem onTrade_cancel_registry {s : BrokerState} {order : Order} {t : RawOrder}
    {id : String} (hid : order.id = some id) (hreg : s.activeOrders id = some order)
    (hstA : order.state = OrderState.ACCEPTED ∨ order.state = OrderState.PARTIALLY_FILLED)
    (h1 : t.getStatus = some "REJECTED" ∨ t.getStatus = some "CANCELED") :
    (onTrade s order t).aborted = false ∧
    ∀ k, (onTrade s order t).state.activeOrders k =
      if k = id then none else s.activeOrders k := by
  have hvalid : validTransition order.state OrderState.CANCELED = true := by
    rcases hstA with h | h <;> rw [h] <;> rfl
  rw [onTrade, if_pos h1]
  simp only [unregisterOrder, hid, hreg, Order.switchState, hvalid, if_true]
  constructor
  · trivial
  · intro k
    rfl

/-- Full description of `addExecutionInfo` at the incremental quantity of
a cumulative report `c` within the requested quantity, on a quantized
active order: no raise, the filled quantity becomes the quantized `c`,
and the state becomes `FILLED` exactly when nothing remains. -/
theorem addExecutionInfo_spec {o : Order} (c : ℚ)
    (hstA : o.state = OrderState.ACCEPTED ∨ o.state = OrderState.PARTIALLY_FILLED)
    (hq : Quantized o.quantity) (hf : Quantized o.filled) (hc : c ≤ o.quantity) :
    o.addExecutionInfo (c - o.filled) =
      { order :=
          { o with
            filled := roundQuantity c,
            state :=
              if roundQuantity (o.quantity - roundQuantity c) = 0 then OrderState.FILLED
              else OrderState.PARTIALLY_FILLED },
        aborted := false } := by
  have hrem : o.getRemaining = o.quantity - o.filled := by
    unfold Order.getRemaining
    exact roundQuantity_eq_of_quantized (hq.sub hf)
  have hnoover : ¬ o.getRemaining < c - o.filled := by
    rw [hrem]
    intro hlt
    exact absurd hc (by linarith)
  unfold Order.addExecutionInfo
  rw [if_neg hnoover]
  have hfill : o.filled + (c - o.filled) = c := by ring
  rw [hfill]
  have hrem1 : Order.getRemaining { o with filled := roundQuantity c } =
      o.quantity - roundQuantity c := by
    unfold Order.getRemaining
    exact roundQuantity_eq_of_quantized (hq.sub (quantized_roundQuantity c))
  have hqc : roundQuantity (o.quantity - roundQuantity c) = o.quantity - roundQuantity c :=
    roundQuantity_eq_of_quantized (hq.sub (quantized_roundQuantity c))
  have hvalid : validTransition o.state
      (if o.quantity - roundQuantity c = 0
       then OrderState.FILLED else OrderState.PARTIALLY_FILLED) = true := by
    by_cases hz : o.quantity - roundQuantity c = 0 <;>
      rcases hstA with h | h <;> simp [hz, h, validTransition]
  simp [Order.switchState, hrem1, hqc, hvalid]

/-- Effect of `_onTrade` on the registry for a `COMPLETE` event matching
a registered, active, quantized order whose report stays within the
requested quantity: no raise; the entry is removed when nothing remains
after the quantized update, and otherwise becomes the partially filled
order with the quantized cumulative quantity. -/
theorem onTrade_complete_registry {s : BrokerState} {order : Order} {t : RawOrder}
    {id : String} (hid : order.id = some id) (hreg : s.activeOrders id = some order)
    (hstA : order.state = OrderState.ACCEPTED ∨ order.state = OrderState.PARTIALLY_FILLED)
    (hq : Quantized order.quantity) (hf : Quantized order.filled)
    (h2 : t.getStatus = some "COMPLETE") {dt : Option ℕ}
    (hdt : t.getDateTimeE = Except.ok dt)
    (hc : t.getTotalFilledQuantity ≤ order.quantity) :
    (onTrade s order t).aborted = false ∧
    ∀ k, (onTrade s order t).state.activeOrders k =
      if k = id then
        (if roundQuantity (order.quantity - roundQuantity t.getTotalFilledQuantity) = 0
         then none else some (completeUpd order t.getTotalFilledQuantity))
      else s.activeOrders k := by
  rw [onTrade, if_neg (status_complete_not_cancel h2), if_pos h2, hdt]
  simp only []
  rw [addExecutionInfo_spec t.getTotalFilledQuantity hstA hq hf hc]
  by_cases hz : roundQuantity (order.quantity - roundQuantity t.getTotalFilledQuantity) = 0
  · simp only [hz, if_true, if_pos]
    have hact : Order.isActive
        { order with
          filled := roundQuantity t.getTotalFilledQuantity,
          state := OrderState.FILLED } = false := rfl
    simp only [hact, Bool.false_eq_true, if_false]
    simp only [unregisterOrder, updateOrder, hid]
    simp only [hreg, Option.map_some]
    constructor
    · simp
    · intro k
      simp only [hz, if_true]
      by_cases hk : k = id <;> simp [hk, notify]
  · simp only [hz, if_false]
    have hact : Order.isActive
        { order with
          filled := roundQuantity t.getTotalFilledQuantity,
          state := OrderState.PARTIALLY_FILLED } = true := rfl
    simp only [hact, if_true]
    constructor
    · simp
    · intro k
      by_cases hk : k = id <;>
        simp [hk, notify, updateOrder, hid, hreg, completeUpd]

/-- Effect of `_onTrade` for an event whose status is neither terminal
nor `COMPLETE`: nothing changes and nothing is raised. -/
theorem onTrade_other_registry (s : BrokerState) (order : Order) (t : RawOrder)
    (h1 : ¬ (t.getStatus = some "REJECTED" ∨ t.getStatus = some "CANCELED"))
    (h2 : ¬ t.getStatus = some "COMPLETE") :
    onTrade s order t = { state := s, order := order, aborted := false } := by
  rw [onTrade, if_neg h1, if_neg h2]

theorem finalEntry_state {es : List RawOrder} :
    ∀ {o o' : Order}, finalEntry o es = some o' →
      (o.state = OrderState.ACCEPTED ∨ o.state = OrderState.PARTIALLY_FILLED) →
      o'.state = OrderState.ACCEPTED ∨ o'.state = OrderState.PARTIALLY_FILLED := by
  induction es with
  | nil =>
    intro o o' h hst
    simp only [finalEntry, Option.some.injEq] at h
    subst h
    exact hst
  | cons t rest ih =>
    intro o o' h hst
    by_cases h1 : t.getStatus = some "REJECTED" ∨ t.getStatus = some "CANCELED"
    · rw [finalEntry_cancel rest h1] at h
      cases h
    · by_cases h2 : t.getStatus = some "COMPLETE"
      · rw [finalEntry_complete rest h2] at h
        by_cases hz : roundQuantity (o.quantity - roundQuantity t.getTotalFilledQuantity) = 0
        · rw [if_pos hz] at h
          cases h
        · rw [if_neg hz] at h
          exact ih h (Or.inr rfl)
      · rw [finalEntry_other rest h1 h2] at h
        exact ih h hst

theorem finalEntry_filled_quantized {es : List RawOrder} :
    ∀ {o o' : Order}, finalEntry o es = some o' → Quantized o.filled →
      Quantized o'.filled := by
  induction es with
  | nil =>
    intro o o' h hf
    simp only [finalEntry, Option.some.injEq] at h
    subst h
    exact hf
  | cons t rest ih =>
    intro o o' h hf
    by_cases h1 : t.getStatus = some "REJECTED" ∨ t.getStatus = some "CANCELED"
    · rw [finalEntry_cancel rest h1] at h
      cases h
    · by_cases h2 : t.getStatus = some "COMPLETE"
      · rw [finalEntry_complete rest h2] at h
        by_cases hz : roundQuantity (o.quantity - roundQuantity t.getTotalFilledQuantity) = 0
        · rw [if_pos hz] at h
          cases h
        · rw [if_neg hz] at h
          exact ih h (quantized_roundQuantity _)
      · rw [finalEntry_other rest h1 h2] at h
        exact ih h hf

/-- The registry after a batch, entry by entry: on a well-formed registry
and a batch within the monitor contract, `_onUserTrades` raises nothing
and leaves at each identifier exactly the `finalEntry` effect of the
events carrying that identifier, applied to the initially registered
order. -/
theorem onUserTrades_lookup (ts : List RawOrder) :
    ∀ s : BrokerState, WFState s → SafeBatch ts s →
    (onUserTrades ts s).2 = false ∧
    ∀ id, (onUserTrades ts s).1.activeOrders id =
      (s.activeOrders id).bind (fun o => finalEntry o (eventsFor id ts)) := by
  induction ts with
  | nil =>
    intro s hW hS
    refine ⟨rfl, fun id => ?_⟩
    rw [eventsFor_nil]
    show s.activeOrders id = (s.activeOrders id).bind fun o => finalEntry o []
    cases s.activeOrders id <;> rfl
  | cons t rest ih =>
    intro s hW hS
    have hSrest : SafeBatch rest s := fun e he h2 => hS e (List.mem_cons_of_mem t he) h2
    cases hl : lookupId s t.getId with
    | none =>
      rw [onUserTrades_cons_none hl]
      obtain ⟨hab, hlook⟩ := ih s hW hSrest
      refine ⟨hab, fun id => ?_⟩
      rw [hlook id]
      by_cases hm : t.norenordno = some id
      · have hnone : s.activeOrders id = none := by
          unfold lookupId RawOrder.getId at hl
          rw [hm] at hl
          exact hl
        rw [hnone]
        rfl
      · rw [eventsFor_cons_nomatch hm]
    | some order =>
      have hex : ∃ tid, t.norenordno = some tid ∧ s.activeOrders tid = some order := by
        unfold lookupId RawOrder.getId at hl
        cases ht : t.norenordno with
        | none =>
          rw [ht] at hl
          exact absurd hl (by simp)
        | some tid =>
          rw [ht] at hl
          exact ⟨tid, rfl, hl⟩
      obtain ⟨tid, htid, hreg⟩ := hex
      obtain ⟨hidf, hstA, hqq, hqf⟩ := hW tid order hreg
      by_cases h1 : t.getStatus = some "REJECTED" ∨ t.getStatus = some "CANCELED"
      · obtain ⟨habort, hpt⟩ := onTrade_cancel_registry hidf hreg hstA h1
        rw [onUserTrades_cons_step hl habort]
        have hW2 : WFState (onTrade s order t).state := by
          intro id o h
          rw [hpt id] at h
          by_cases hm : id = tid
          · rw [if_pos hm] at h
            exact absurd h (by simp)
          · rw [if_neg hm] at h
            exact hW id o h
        have hS2 : SafeBatch rest (onTrade s order t).state := by
          intro e he h2
          obtain ⟨hp, hb⟩ := hSrest e he h2
          refine ⟨hp, fun id o hei h => ?_⟩
          rw [hpt id] at h
          by_cases hm : id = tid
          · rw [if_pos hm] at h
            exact absurd h (by simp)
          · rw [if_neg hm] at h
            exact hb id o hei h
        obtain ⟨hab, hlook⟩ := ih (onTrade s order t).state hW2 hS2
        refine ⟨hab, fun id => ?_⟩
        rw [hlook id, hpt id]
        by_cases hm : id = tid
        · rw [if_pos hm]
          subst hm
          rw [hreg]
          simp only [Option.some_bind, Option.none_bind]
          rw [eventsFor_cons_match htid, finalEntry_cancel _ h1]
        · rw [if_neg hm]
          have hmm : ¬ t.norenordno = some id := by
            rw [htid]
            intro hcon
            exact hm (Option.some.inj hcon).symm
          rw [eventsFor_cons_nomatch hmm]
      · by_cases h2 : t.getStatus = some "COMPLETE"
        · obtain ⟨⟨dt, hdt⟩, hbound⟩ := hS t (List.mem_cons_self t rest) h2
          have hcle : t.getTotalFilledQuantity ≤ order.quantity := hbound tid order htid hreg
          obtain ⟨habort, hpt⟩ := onTrade_complete_registry hidf hreg hstA hqq hqf h2 hdt hcle
          rw [onUserTrades_cons_step hl habort]
          have hW2 : WFState (onTrade s order t).state := by
            intro id o h
            rw [hpt id] at h
            by_cases hm : id = tid
            · rw [if_pos hm] at h
              by_cases hz : roundQuantity
                  (order.quantity - roundQuantity t.getTotalFilledQuantity) = 0
              · rw [if_pos hz] at h
                exact absurd h (by simp)
              · rw [if_neg hz] at h
                have h := Option.some.inj h
                subst h
                subst hm
                exact ⟨hidf, Or.inr rfl, hqq, quantized_roundQuantity _⟩
            · rw [if_neg hm] at h
              exact hW id o h
          have hS2 : SafeBatch rest (onTrade s order t).state := by
            intro e he h2e
            obtain ⟨hp, hb⟩ := hSrest e he h2e
            refine ⟨hp, fun id o hei h => ?_⟩
            rw [hpt id] at h
            by_cases hm : id = tid
            · rw [if_pos hm] at h
              by_cases hz : roundQuantity
                  (order.quantity - roundQuantity t.getTotalFilledQuantity) = 0
              · rw [if_pos hz] at h
                exact absurd h (by simp)
              · rw [if_neg hz] at h
                have h := Option.some.inj h
                subst h
                subst hm
                exact hb id order hei hreg
            · rw [if_neg hm] at h
              exact hb id o hei h
          obtain ⟨hab, hlook⟩ := ih (onTrade s order t).state hW2 hS2
          refine ⟨hab, fun id => ?_⟩
          rw [hlook id, hpt id]
          by_cases hm : id = tid
          · rw [if_pos hm]
            subst hm
            rw [hreg]
            by_cases hz : roundQuantity
                (order.quantity - roundQuantity t.getTotalFilledQuantity) = 0
            · rw [if_pos hz]
              simp only [Option.some_bind, Option.none_bind]
              rw [eventsFor_cons_match htid, finalEntry_complete _ h2, if_pos hz]
            · rw [if_neg hz]
              simp only [Option.some_bind]
              rw [eventsFor_cons_match htid, finalEntry_complete _ h2, if_neg hz]
          · rw [if_neg hm]
            have hmm : ¬ t.norenordno = some id := by
              rw [htid]
              intro hcon
              exact hm (Option.some.inj hcon).symm
            rw [eventsFor_cons_nomatch hmm]
        · have hno := onTrade_other_registry s order t h1 h2
          have habort : (onTrade s order t).aborted = false := by rw [hno]
          rw [onUserTrades_cons_step hl habort]
          have hstate : (onTrade s order t).state = s := by rw [hno]
          rw [hstate]
          obtain ⟨hab, hlook⟩ := ih s hW hSrest
          refine ⟨hab, fun id => ?_⟩
          rw [hlook id]
          by_cases hm : t.norenordno = some id
          · rw [eventsFor_cons_match hm]
            cases hso : s.activeOrders id with
            | none => rfl
            | some o =>
              show finalEntry o (eventsFor id rest) = finalEntry o (t :: eventsFor id rest)
              rw [finalEntry_other _ h1 h2]
          · rw [eventsFor_cons_nomatch hm]

/-- C4: applying the same monitor batch twice through `_onUserTrades`
leaves every registry entry (in particular every filled quantity) exactly
as after applying it once: orders the batch unregistered stay
unregistered and their events are no-ops on the second pass, and
re-applying a `COMPLETE` event whose cumulative quantity is already
recorded contributes zero incremental fill.  The hypotheses are the
invariants the engine maintains on the registry and the batch contract of
the monitor. -/
theorem onUserTrades_idempotent (ts : List RawOrder) (s : BrokerState)
    (hW : WFState s) (hS : SafeBatch ts s) :
    ∀ id, (onUserTrades ts (onUserTrades ts s).1).1.activeOrders id =
      (onUserTrades ts s).1.activeOrders id := by
  obtain ⟨hab1, hlook1⟩ := onUserTrades_lookup ts s hW hS
  have hW1 : WFState (onUserTrades ts s).1 := by
    intro id o h
    rw [hlook1 id] at h
    cases hso : s.activeOrders id with
    | none =>
      rw [hso] at h
      exact absurd h (by simp)
    | some o0 =>
      rw [hso] at h
      have hfe : finalEntry o0 (eventsFor id ts) = some o := h
      obtain ⟨h0id, h0st, h0q, h0f⟩ := hW id o0 hso
      have hsc := finalEntry_sameCore hfe
      refine ⟨?_, finalEntry_state hfe h0st, ?_, finalEntry_filled_quantized hfe h0f⟩
      · rw [← hsc.1]
        exact h0id
      · rw [← hsc.2.2.2.2.1]
        exact h0q
  have hS1 : SafeBatch ts (onUserTrades ts s).1 := by
    intro e he h2
    obtain ⟨hp, hb⟩ := hS e he h2
    refine ⟨hp, fun id o hei h => ?_⟩
    rw [hlook1 id] at h
    cases hso : s.activeOrders id with
    | none =>
      rw [hso] at h
      exact absurd h (by simp)
    | some o0 =>
      rw [hso] at h
      have hfe : finalEntry o0 (eventsFor id ts) = some o := h
      rw [← (finalEntry_sameCore hfe).2.2.2.2.1]
      exact hb id o0 hei hso
  obtain ⟨hab2, hlook2⟩ := onUserTrades_lookup ts (onUserTrades ts s).1 hW1 hS1
  intro id
  rw [hlook2 id, hlook1 id]
  cases hso : s.activeOrders id with
  | none => rfl
  | some o =>
    show (finalEntry o (eventsFor id ts)).bind (fun o2 => finalEntry o2 (eventsFor id ts)) =
      finalEntry o (eventsFor id ts)
    cases hfe : finalEntry o (eventsFor id ts) with
    | none => rfl
    | some o2 =>
      show finalEntry o2 (eventsFor id ts) = some o2
      exact finalEntry_absorb hfe

/-- C4 witness: the theorem applied to the concrete C2 scenario state and
a one-event batch. -/
theorem onUserTrades_idempotent_witness :
    (onUserTrades [c2Report1] (onUserTrades [c2Report1] c2State).1).1.activeOrders "O1" =
      (onUserTrades [c2Report1] c2State).1.activeOrders "O1" :=
  onUserTrades_idempotent [c2Report1] c2State
    (by
      intro id o h
      simp only [c2State] at h
      by_cases hid : id = "O1"
      · rw [if_pos hid] at h
        have h := Option.some.inj h
        subst h
        subst hid
        refine ⟨rfl, Or.inl rfl, ⟨10000, by norm_num [c2Order]⟩,
          ⟨0, by norm_num [c2Order]⟩⟩
      · rw [if_neg hid] at h
        exact absurd h (by simp))
    (by
      intro e he h2
      have he2 : e = c2Report1 := by simpa using he
      subst he2
      refine ⟨⟨some 10, rfl⟩, ?_⟩
      intro id o hei h
      simp only [c2State] at h
      by_cases hid : id = "O1"
      · rw [if_pos hid] at h
        have h := Option.some.inj h
        subst h
        norm_num [c2Report1, c2Order, RawOrder.getTotalFilledQuantity]
      · rw [if_neg hid] at h
        exact absurd h (by simp))
    "O1"

end Finvasia
